import Mathlib

/-!
Shallow embedding of the Argparser command-line parsing library
(src/Argparser.h): option descriptor table, value converter, short- and
long-option matchers, and the parse loop with in-place compaction,
together with theorems about the library's behavior.

Modelling conventions:
* C strings are Lean `String`s viewed as their character lists; the
  terminating NUL of a C string is represented by reading past the end of
  the list, which yields the character `nulChar`.
* The `void *value` destination pointer of an option is modelled as an
  optional slot identifier into an explicit association-list store; the C
  function-pointer `callback` is modelled as an optional callback
  identifier that is appended to a trace when the callback is invoked.
* Process-terminating error paths (`exit` after printing a diagnostic)
  are modelled with `Except`: `Except.error` carries the kind of exit and
  the memory state (store and callback trace) at the moment of exit.
* `assert` failures are modelled as a distinct exit kind `assertFail`.
* The destructive in-place compaction of `argv` is modelled by returning
  the list of slots `argv[0] .. argv[returnedCount]` after mutation:
  the positional tokens followed by the NULL sentinel.
-/

deriving instance DecidableEq for Except

/-- Option kinds, mirroring `enum ArgparserOptionType`. -/
inductive OptionType
  | END
  | GROUP
  | BOOLEAN
  | INTEGER
  | FLOAT
  | STRING
deriving DecidableEq

/-- One option descriptor, mirroring `struct ArgparserOption`. -/
structure ArgparserOption where
  type : OptionType
  shortName : Char
  longName : Option String
  value : Option Nat
  help : Option String := none
  callback : Option Nat := none
deriving DecidableEq

/-- The NUL character, used where C code reads a string's terminator. -/
def nulChar : Char := Char.ofNat 0

/-- Character of `s` at index `i`, or NUL when reading at or past the end
    of the string (the C string terminator). -/
def charAt (s : String) (i : Nat) : Char :=
  ((s.data.drop i).headD nulChar)

/-- Condition `arg[0] != '-' || !arg[1]` of the parse loop: the token is a
    plain (non-option) argument or the single character `-`. -/
def plainTok (arg : String) : Bool :=
  (charAt arg 0 != '-') || (charAt arg 1 == nulChar)

/-- A typed value written through an option's destination pointer.  The
    float case stores the consumed source text, since floating-point
    values are not modelled. -/
inductive DestValue
  | b (v : Bool)
  | i (v : Int)
  | f (v : String)
  | s (v : String)
deriving DecidableEq

/-- The destination memory, as an association list from slot ids. -/
abbrev Store := List (Nat × DestValue)

/-- Writes value `v` through destination slot `k`. -/
def storeWrite (st : Store) (k : Nat) (v : DestValue) : Store :=
  match st with
  | [] => [(k, v)]
  | (k', v') :: rest => if k' = k then (k, v) :: rest else (k', v') :: storeWrite rest k v

/-- Reads destination slot `k`, or `none` if it was never written. -/
def storeGet (st : Store) (k : Nat) : Option DestValue :=
  match st with
  | [] => none
  | (k', v') :: rest => if k' = k then some v' else storeGet rest k

/-- The mutable memory visible to the parser: the destination store and
    the trace of invoked callbacks, in invocation order. -/
structure Env where
  store : Store
  calls : List Nat
deriving DecidableEq

/-- The empty initial memory. -/
def env0 : Env := { store := [], calls := [] }

/-- The kind of a process-terminating exit taken inside the library. -/
inductive ExitKind
  | unknownOption (arg : String)
  | invalidValue (shortName : Char) (longName : Option String) (reason : String)
  | assertFail
deriving DecidableEq

/-- A process-terminating exit together with the memory at that moment. -/
structure ExitInfo where
  kind : ExitKind
  env : Env
deriving DecidableEq

/-- Appends the option's callback (if any) to the invocation trace.
    Mirrors `if (option->callback) option->callback(self, option);`. -/
def invokeCallback (env : Env) (opt : ArgparserOption) : Env :=
  match opt.callback with
  | some cb => { env with calls := env.calls ++ [cb] }
  | none => env

/-- Whether `c` counts as white space for `strtol` (C `isspace`). -/
def isSpaceChar (c : Char) : Bool :=
  c = ' ' || c = '\t' || c = '\n' || c = '\x0b' || c = '\x0c' || c = '\r'

/-- Numeric value of a hexadecimal digit character. -/
def hexDigitVal (c : Char) : Option Nat :=
  if '0' ≤ c ∧ c ≤ '9' then some (c.toNat - '0'.toNat)
  else if 'a' ≤ c ∧ c ≤ 'f' then some (c.toNat - 'a'.toNat + 10)
  else if 'A' ≤ c ∧ c ≤ 'F' then some (c.toNat - 'A'.toNat + 10)
  else none

/-- Whether `c` is a digit of the given base. -/
def isBaseDigit (base : Nat) (c : Char) : Bool :=
  match hexDigitVal c with
  | some v => v < base
  | none => false

/-- Value of a digit string in the given base. -/
def digitsValue (base : Nat) (ds : List Char) : Nat :=
  ds.foldl (fun acc c => acc * base + ((hexDigitVal c).getD 0)) 0

/-- Largest value of the C `long` type (LP64). -/
def LONG_MAX : Int := 2 ^ 63 - 1

/-- Smallest value of the C `long` type (LP64). -/
def LONG_MIN : Int := -(2 ^ 63)

/-- Result of `strtol`: the returned value, the number of characters
    consumed (`endptr - nptr`), and whether `errno` was set to ERANGE. -/
structure StrtolOut where
  value : Int
  consumed : Nat
  rangeErr : Bool
deriving DecidableEq

/-- Model of C `strtol(s, &end, 0)`: skips white space, reads an optional
    sign, detects the base from a `0x`/`0` prefix, consumes the digits of
    that base, and clamps with ERANGE on `long` overflow.  If no digits
    are consumed, no conversion is performed and `consumed = 0`. -/
def strtol0 (str : String) : StrtolOut :=
  let cs := str.data
  let sp := (cs.takeWhile isSpaceChar).length
  let cs1 := cs.drop sp
  let sgn : Int := match cs1 with
    | '-' :: _ => -1
    | _ => 1
  let signLen : Nat := match cs1 with
    | '+' :: _ => 1
    | '-' :: _ => 1
    | _ => 0
  let cs2 := cs1.drop signLen
  let basePref : Nat × Nat × List Char := match cs2 with
    | '0' :: x :: r =>
      if (x == 'x' || x == 'X') && (match r with | c :: _ => isBaseDigit 16 c | [] => false)
      then (16, 2, r)
      else (8, 0, cs2)
    | '0' :: r => (8, 0, '0' :: r)
    | _ => (10, 0, cs2)
  let base := basePref.1
  let prefLen := basePref.2.1
  let csD := basePref.2.2
  let ds := csD.takeWhile (isBaseDigit base)
  if ds.isEmpty then
    { value := 0, consumed := 0, rangeErr := false }
  else
    let v : Int := sgn * (digitsValue base ds : Int)
    let consumed := sp + signLen + prefLen + ds.length
    if v > LONG_MAX then { value := LONG_MAX, consumed := consumed, rangeErr := true }
    else if v < LONG_MIN then { value := LONG_MIN, consumed := consumed, rangeErr := true }
    else { value := v, consumed := consumed, rangeErr := false }

/-- Truncation of a C `long` value when stored through an `int *`
    destination (two's-complement wrap to 32 bits). -/
def toInt32 (n : Int) : Int :=
  (n + 2 ^ 31) % 2 ^ 32 - 2 ^ 31

/-- Number of characters consumed by C `strtof` on `str` (decimal form:
    white space, sign, digits with optional fraction and exponent).  Hex
    floats, infinities and NaNs are not modelled; the float value itself
    is represented by the consumed text. -/
def strtofConsumed (str : String) : Nat :=
  let cs := str.data
  let sp := (cs.takeWhile isSpaceChar).length
  let cs1 := cs.drop sp
  let signLen : Nat := match cs1 with
    | '+' :: _ => 1
    | '-' :: _ => 1
    | _ => 0
  let cs2 := cs1.drop signLen
  let intLen := (cs2.takeWhile Char.isDigit).length
  let cs3 := cs2.drop intLen
  let dotFrac : Nat × Nat × List Char := match cs3 with
    | '.' :: r =>
      let fl := (r.takeWhile Char.isDigit).length
      (1, fl, r.drop fl)
    | _ => (0, 0, cs3)
  let dotLen := dotFrac.1
  let fracLen := dotFrac.2.1
  let cs4 := dotFrac.2.2
  if intLen + fracLen = 0 then 0
  else
    let expLen : Nat := match cs4 with
      | e :: rest2 =>
        if e = 'e' ∨ e = 'E' then
          let es : Nat := match rest2 with
            | c :: _ => if c = '+' ∨ c = '-' then 1 else 0
            | [] => 0
          let ed := ((rest2.drop es).takeWhile Char.isDigit).length
          if ed = 0 then 0 else 1 + es + ed
        else 0
      | [] => 0
    sp + signLen + intLen + dotLen + fracLen + expLen

/-- Value converter, mirroring `Argparser_parseValue`.  When the option
    has a destination, converts `optvalue` according to the option's kind
    and writes through the destination, terminating with InvalidValue on
    conversion failure; afterwards invokes the option's callback. -/
def Argparser_parseValue (env : Env) (opt : ArgparserOption) (optvalue : Option String) :
    Except ExitInfo Env :=
  match opt.value with
  | none => .ok (invokeCallback env opt)
  | some dest =>
    match opt.type with
    | .BOOLEAN =>
      match optvalue with
      | some v =>
        if v.data = ['1'] then
          .ok (invokeCallback { env with store := storeWrite env.store dest (.b true) } opt)
        else if v.data = ['0'] then
          .ok (invokeCallback { env with store := storeWrite env.store dest (.b false) } opt)
        else
          .error ⟨.invalidValue opt.shortName opt.longName "expects no value, 0, or 1", env⟩
      | none =>
        .ok (invokeCallback { env with store := storeWrite env.store dest (.b true) } opt)
    | .STRING =>
      match optvalue with
      | some v => .ok (invokeCallback { env with store := storeWrite env.store dest (.s v) } opt)
      | none => .error ⟨.invalidValue opt.shortName opt.longName "requires a value", env⟩
    | .INTEGER =>
      match optvalue with
      | some v =>
        if v.data = [] then
          .error ⟨.invalidValue opt.shortName opt.longName "requires a value", env⟩
        else
          let r := strtol0 v
          let env1 := { env with store := storeWrite env.store dest (.i (toInt32 r.value)) }
          if r.rangeErr then
            .error ⟨.invalidValue opt.shortName opt.longName "Numerical result out of range", env1⟩
          else if r.consumed < v.data.length then
            .error ⟨.invalidValue opt.shortName opt.longName "expects an integer value", env1⟩
          else
            .ok (invokeCallback env1 opt)
      | none => .error ⟨.invalidValue opt.shortName opt.longName "requires a value", env⟩
    | .FLOAT =>
      match optvalue with
      | some v =>
        if v.data = [] then
          .error ⟨.invalidValue opt.shortName opt.longName "requires a value", env⟩
        else
          let n := strtofConsumed v
          let env1 := { env with store := storeWrite env.store dest (.f (String.mk (v.data.take n))) }
          if n < v.data.length then
            .error ⟨.invalidValue opt.shortName opt.longName "expects a numerical value", env1⟩
          else
            .ok (invokeCallback env1 opt)
      | none => .error ⟨.invalidValue opt.shortName opt.longName "requires a value", env⟩
    | _ => .error ⟨.assertFail, env⟩

/-- Inner table scan of the compound branch of `Argparser_parseShortOption`
    for one character `c` of a compound token: every non-END entry whose
    short name equals `c` is dispatched with an absent value. -/
def shortScanChar (opts : List ArgparserOption) (env : Env) (c : Char) (found : Bool) :
    Except ExitInfo (Env × Bool) :=
  match opts with
  | [] => .ok (env, found)
  | opt :: rest =>
    if opt.type = .END then .ok (env, found)
    else if opt.shortName = c then
      match Argparser_parseValue env opt none with
      | .error e => .error e
      | .ok env' => shortScanChar rest env' c true
    else shortScanChar rest env c found

/-- Character loop of the compound branch of `Argparser_parseShortOption`:
    each character is treated as an independent valueless flag, and a
    character matching no entry terminates with UnknownOption at once. -/
def shortCompoundLoop (table : List ArgparserOption) (arg : String) (chars : List Char)
    (env : Env) (found : Bool) : Except ExitInfo (Env × Bool) :=
  match chars with
  | [] => .ok (env, found)
  | c :: rest =>
    match shortScanChar table env c false with
    | .error e => .error e
    | .ok (env', f) =>
      if f then shortCompoundLoop table arg rest env' f
      else .error ⟨.unknownOption arg, env'⟩

/-- Table loop of the length-2 branch of `Argparser_parseShortOption`.
    The current `argv` list is threaded because a matching entry may
    consume the following token as its value (`self->argv++`), and the C
    loop re-reads `self->argv[0]` and `self->argv[1]` after such a shift. -/
def shortSingleLoop (opts : List ArgparserOption) (env : Env) (argv : List String)
    (found : Bool) : Except ExitInfo (Env × List String × Bool) :=
  match opts with
  | [] => .ok (env, argv, found)
  | opt :: rest =>
    if opt.type = .END then .ok (env, argv, found)
    else if opt.shortName ≠ nulChar ∧ opt.shortName = charAt (argv.headD "") 1 then
      match argv with
      | _ :: next :: _ =>
        if charAt next 0 ≠ '-' then
          match Argparser_parseValue env opt (some next) with
          | .error e => .error e
          | .ok env' => shortSingleLoop rest env' (argv.drop 1) true
        else
          match Argparser_parseValue env opt none with
          | .error e => .error e
          | .ok env' => shortSingleLoop rest env' argv true
      | _ =>
        match Argparser_parseValue env opt none with
        | .error e => .error e
        | .ok env' => shortSingleLoop rest env' argv true
    else shortSingleLoop rest env argv found

/-- Short-option matcher, mirroring `Argparser_parseShortOption`.  Takes
    the current remaining argument list (`self->argv`, with the short
    token at its head) and returns the updated remaining list. -/
def Argparser_parseShortOption (table : List ArgparserOption) (env : Env)
    (argv : List String) : Except ExitInfo (Env × List String) :=
  let arg := argv.headD ""
  if arg.data.length = 2 then
    match shortSingleLoop table env argv false with
    | .error e => .error e
    | .ok (env', argv', found) =>
      if found then .ok (env', argv')
      else .error ⟨.unknownOption (argv'.headD ""), env'⟩
  else
    match shortCompoundLoop table arg (arg.data.drop 1) env false with
    | .error e => .error e
    | .ok (env', found) =>
      if found then .ok (env', argv)
      else .error ⟨.unknownOption arg, env'⟩

/-- Table loop of `Argparser_parseLongOption` over the token `argTok`
    (which starts with `--`): an entry matches when the token text after
    `--` begins with the entry's long name; an `=` immediately after the
    name attaches a value, otherwise a BOOLEAN entry is dispatched with
    an absent value and other kinds produce no match. -/
def longLoop (argTok : String) (opts : List ArgparserOption) (env : Env) (found : Bool) :
    Except ExitInfo (Env × Bool) :=
  match opts with
  | [] => .ok (env, found)
  | opt :: rest =>
    if opt.type = .END then .ok (env, found)
    else
      match opt.longName with
      | none => longLoop argTok rest env found
      | some nm =>
        if nm.data.length < 1 then longLoop argTok rest env found
        else
          let tl := argTok.data.drop 2
          if tl.take nm.data.length = nm.data then
            let restChars := tl.drop nm.data.length
            if restChars.head? = some '=' then
              match Argparser_parseValue env opt (some (String.mk (restChars.drop 1))) with
              | .error e => .error e
              | .ok env' => longLoop argTok rest env' true
            else if opt.type = .BOOLEAN then
              match Argparser_parseValue env opt none with
              | .error e => .error e
              | .ok env' => longLoop argTok rest env' true
            else longLoop argTok rest env found
          else longLoop argTok rest env found

/-- Long-option matcher, mirroring `Argparser_parseLongOption`. -/
def Argparser_parseLongOption (table : List ArgparserOption) (env : Env) (argTok : String) :
    Except ExitInfo Env :=
  match longLoop argTok table env false with
  | .error e => .error e
  | .ok (env', found) =>
    if found then .ok env'
    else .error ⟨.unknownOption argTok, env'⟩

/-- Parse loop of `Argparser_parse`, fueled by the number of remaining
    tokens (each iteration consumes at least one token, so fuel equal to
    the initial list length is always sufficient).  Returns the memory,
    the compacted positional prefix (`out[0..cpidx)`), and the unconsumed
    tail (`self->argv` at loop exit). -/
def parseLoopF (table : List ArgparserOption) (stop : Bool) :
    Nat → Env → List String → List String → Except ExitInfo (Env × List String × List String)
  | _, env, [], out => .ok (env, out, [])
  | 0, env, argv, out => .ok (env, out, argv)
  | fuel + 1, env, arg :: rest, out =>
    if plainTok arg then
      if stop then .ok (env, out, arg :: rest)
      else parseLoopF table stop fuel env rest (out ++ [arg])
    else if charAt arg 1 != '-' then
      match Argparser_parseShortOption table env (arg :: rest) with
      | .error e => .error e
      | .ok (env', argv') => parseLoopF table stop fuel env' (argv'.drop 1) out
    else if charAt arg 2 != nulChar then
      match Argparser_parseLongOption table env arg with
      | .error e => .error e
      | .ok env' => parseLoopF table stop fuel env' rest out
    else .ok (env, out, rest)

/-- Parser context, mirroring `struct Argparser` (the transient cursor
    fields `argc`, `argv`, `out`, `cpidx` live only inside one `parse`
    call and are threaded explicitly by `parseLoopF`). -/
structure Argparser where
  valid : Bool
  options : List ArgparserOption
  usage : Option String := none
  description : Option String := none
  epilog : Option String := none
  stopAtNonOption : Bool := false
deriving DecidableEq

/-- Mirrors `Argparser_init`: zeroes the context and binds the table. -/
def Argparser_init (options : List ArgparserOption) : Argparser :=
  { valid := true, options := options }

/-- Mirrors `Argparser_clear`: invalidates the context. -/
def Argparser_clear (self : Argparser) : Argparser :=
  { self with valid := false }

/-- Mirrors `Argparser_setUsage`; the `assert(self->valid)` on an invalid
    context is modelled as the `assertFail` exit. -/
def Argparser_setUsage (self : Argparser) (usage : String) : Except ExitKind Argparser :=
  if self.valid then .ok { self with usage := some usage } else .error .assertFail

/-- Mirrors `Argparser_setDescription`. -/
def Argparser_setDescription (self : Argparser) (description : String) :
    Except ExitKind Argparser :=
  if self.valid then .ok { self with description := some description } else .error .assertFail

/-- Mirrors `Argparser_setEpilog`. -/
def Argparser_setEpilog (self : Argparser) (epilog : String) : Except ExitKind Argparser :=
  if self.valid then .ok { self with epilog := some epilog } else .error .assertFail

/-- Mirrors `Argparser_setStopAtNonOption`. -/
def Argparser_setStopAtNonOption (self : Argparser) (stop : Bool) : Except ExitKind Argparser :=
  if self.valid then .ok { self with stopAtNonOption := stop } else .error .assertFail

/-- Result of a completed `Argparser_parse` call: the returned count and
    the slots `argv[0] .. argv[count]` of the mutated vector (the
    positional tokens followed by the NULL sentinel), plus the memory. -/
structure ParseResult where
  count : Nat
  slots : List (Option String)
  env : Env
deriving DecidableEq

/-- Mirrors `Argparser_parse`: asserts validity, runs the parse loop over
    `argv` without its leading invocation name, and compacts positionals
    to the front followed by a NULL sentinel, returning the new count. -/
def Argparser_parse (self : Argparser) (env : Env) (argv : List String) :
    Except ExitInfo ParseResult :=
  if self.valid then
    let args := argv.drop 1
    match parseLoopF self.options self.stopAtNonOption args.length env args [] with
    | .error e => .error e
    | .ok (env', out, remaining) =>
      .ok { count := out.length + remaining.length,
            slots := (out ++ remaining).map some ++ [none],
            env := env' }
  else .error ⟨.assertFail, env⟩

/-- Table terminator entry, mirroring `ARGPARSER_OPT_END()`. -/
def optEnd : ArgparserOption :=
  { type := .END, shortName := nulChar, longName := none, value := none }

/-- A BOOLEAN option `-c` / `--color` writing destination slot 0. -/
def optColor : ArgparserOption :=
  { type := .BOOLEAN, shortName := 'c', longName := some "color", value := some 0 }

/-- A table containing only the color option. -/
def colorTable : List ArgparserOption := [optColor, optEnd]

/-- A BOOLEAN option `-i` / `--inverse` writing destination slot 1. -/
def optInverse : ArgparserOption :=
  { type := .BOOLEAN, shortName := 'i', longName := some "inverse", value := some 1 }

/-- A table with the inverse and color options. -/
def stopTable : List ArgparserOption := [optInverse, optColor, optEnd]

/-- A BOOLEAN option `-a` writing destination slot 0. -/
def optA : ArgparserOption :=
  { type := .BOOLEAN, shortName := 'a', longName := none, value := some 0 }

/-- A BOOLEAN option `-b` writing destination slot 1. -/
def optB : ArgparserOption :=
  { type := .BOOLEAN, shortName := 'b', longName := none, value := some 1 }

/-- A table with the `-a` and `-b` boolean options. -/
def abTable : List ArgparserOption := [optA, optB, optEnd]

/-- An INTEGER option `-i` / `--int` writing destination slot 0. -/
def optInt : ArgparserOption :=
  { type := .INTEGER, shortName := 'i', longName := some "int", value := some 0 }

/-- A BOOLEAN option `-a` with destination slot 0 and callback id 10. -/
def optAcb : ArgparserOption :=
  { type := .BOOLEAN, shortName := 'a', longName := none, value := some 0, callback := some 10 }

/-- A BOOLEAN option `-c` with destination slot 2 and callback id 11. -/
def optCcb : ArgparserOption :=
  { type := .BOOLEAN, shortName := 'c', longName := none, value := some 2, callback := some 11 }

/-- A table with the two callback-carrying boolean options. -/
def acTable : List ArgparserOption := [optAcb, optCcb, optEnd]

/-- The conventional help option `ARGPARSER_OPT_HELP()`: a BOOLEAN option
    `-h` / `--help` with no destination and the help callback (id 0). -/
def optHelp : ArgparserOption :=
  { type := .BOOLEAN, shortName := 'h', longName := some "help", value := none,
    callback := some 0 }

/-- The table loop of the length-2 short-option branch only ever advances
    the argument cursor, so the returned argument list is a suffix of the
    one it was given. -/
theorem shortSingleLoop_suffix {opts : List ArgparserOption} {env : Env} {argv : List String}
    {found : Bool} {e : Env} {a : List String} {f : Bool}
    (h : shortSingleLoop opts env argv found = .ok (e, a, f)) : a <:+ argv := by
  induction opts generalizing env argv found with
  | nil =>
    simp only [shortSingleLoop, Except.ok.injEq, Prod.mk.injEq] at h
    obtain ⟨-, rfl, -⟩ := h
    exact List.suffix_refl _
  | cons opt rest ih =>
    simp only [shortSingleLoop] at h
    split at h
    · simp only [Except.ok.injEq, Prod.mk.injEq] at h
      obtain ⟨-, rfl, -⟩ := h
      exact List.suffix_refl _
    · split at h
      · split at h
        · split at h
          · split at h
            · exact absurd h (by simp)
            · exact (ih h).trans (List.drop_suffix 1 _)
          · split at h
            · exact absurd h (by simp)
            · exact ih h
        · split at h
          · exact absurd h (by simp)
          · exact ih h
      · exact ih h

/-- The short-option matcher only ever advances the argument cursor. -/
theorem parseShortOption_suffix {table : List ArgparserOption} {env : Env}
    {argv : List String} {e : Env} {a : List String}
    (h : Argparser_parseShortOption table env argv = .ok (e, a)) : a <:+ argv := by
  simp only [Argparser_parseShortOption] at h
  by_cases hlen : (argv.headD "").data.length = 2
  · rw [if_pos hlen] at h
    cases hsl : shortSingleLoop table env argv false with
    | error e' =>
      rw [hsl] at h
      exact absurd h (by simp)
    | ok v =>
      obtain ⟨env', argv', found⟩ := v
      rw [hsl] at h
      split at h
      · exact absurd h (by simp)
      rename_i env2 argv2 found2 heq
      simp only [Except.ok.injEq, Prod.mk.injEq] at heq
      obtain ⟨rfl, rfl, rfl⟩ := heq
      split at h
      · simp only [Except.ok.injEq, Prod.mk.injEq] at h
        obtain ⟨-, rfl⟩ := h
        exact shortSingleLoop_suffix hsl
      · exact absurd h (by simp)
  · rw [if_neg hlen] at h
    cases hsc : shortCompoundLoop table (argv.headD "")
        ((argv.headD "").data.drop 1) env false with
    | error e' =>
      rw [hsc] at h
      exact absurd h (by simp)
    | ok v =>
      obtain ⟨env', found⟩ := v
      rw [hsc] at h
      split at h
      · exact absurd h (by simp)
      rename_i env2 found2 heq
      simp only [Except.ok.injEq, Prod.mk.injEq] at heq
      obtain ⟨rfl, rfl⟩ := heq
      split at h
      · simp only [Except.ok.injEq, Prod.mk.injEq] at h
        obtain ⟨-, rfl⟩ := h
        exact List.suffix_refl _
      · exact absurd h (by simp)

/-- A completed run of the parse loop extends the already-compacted
    positional prefix with tokens drawn from the remaining input, and its
    unconsumed tail is likewise drawn from the input: the new positionals
    together with the tail form a sublist (order-preserving selection) of
    the input tokens. -/
theorem parseLoopF_ok_sublist {table : List ArgparserOption} {stop : Bool} :
    ∀ {fuel : Nat} {env : Env} {argv out : List String} {e : Env} {out2 rem : List String},
    parseLoopF table stop fuel env argv out = .ok (e, out2, rem) →
    ∃ mid, out2 = out ++ mid ∧ (mid ++ rem).Sublist argv := by
  intro fuel
  induction fuel with
  | zero =>
    intro env argv out e out2 rem h
    cases argv with
    | nil =>
      simp only [parseLoopF, Except.ok.injEq, Prod.mk.injEq] at h
      obtain ⟨-, rfl, rfl⟩ := h
      exact ⟨[], by simp, by simp⟩
    | cons arg rest =>
      simp only [parseLoopF, Except.ok.injEq, Prod.mk.injEq] at h
      obtain ⟨-, rfl, rfl⟩ := h
      exact ⟨[], by simp, by simp⟩
  | succ fuel ih =>
    intro env argv out e out2 rem h
    cases argv with
    | nil =>
      simp only [parseLoopF, Except.ok.injEq, Prod.mk.injEq] at h
      obtain ⟨-, rfl, rfl⟩ := h
      exact ⟨[], by simp, by simp⟩
    | cons arg rest =>
      simp only [parseLoopF] at h
      split at h
      · split at h
        · simp only [Except.ok.injEq, Prod.mk.injEq] at h
          obtain ⟨-, rfl, rfl⟩ := h
          exact ⟨[], by simp, by simp⟩
        · obtain ⟨mid, hmid, hsub⟩ := ih h
          refine ⟨arg :: mid, ?_, ?_⟩
          · rw [hmid]
            simp
          · exact List.Sublist.cons₂ arg hsub
      · split at h
        · cases hps : Argparser_parseShortOption table env (arg :: rest) with
          | error e' =>
            rw [hps] at h
            exact absurd h (by simp)
          | ok v =>
            obtain ⟨env', argv'⟩ := v
            rw [hps] at h
            split at h
            · exact absurd h (by simp)
            rename_i env2 argv2 heq
            simp only [Except.ok.injEq, Prod.mk.injEq] at heq
            obtain ⟨rfl, rfl⟩ := heq
            obtain ⟨mid, hmid, hsub⟩ := ih h
            refine ⟨mid, hmid, ?_⟩
            have h2 : (argv'.drop 1).Sublist argv' := List.drop_sublist 1 argv'
            have h3 : argv'.Sublist (arg :: rest) := (parseShortOption_suffix hps).sublist
            exact hsub.trans (h2.trans h3)
        · split at h
          · cases hpl : Argparser_parseLongOption table env arg with
            | error e' =>
              rw [hpl] at h
              exact absurd h (by simp)
            | ok env' =>
              rw [hpl] at h
              split at h
              · exact absurd h (by simp)
              rename_i env2 heq
              simp only [Except.ok.injEq] at heq
              obtain rfl := heq
              obtain ⟨mid, hmid, hsub⟩ := ih h
              exact ⟨mid, hmid, List.Sublist.cons arg hsub⟩
          · simp only [Except.ok.injEq, Prod.mk.injEq] at h
            obtain ⟨-, rfl, rfl⟩ := h
            exact ⟨[], by simp, by simp [List.Sublist.cons]⟩

/-- A run of the parse loop over tokens that are all plain (no leading
    `-`, or a sole `-`) consumes no option and leaves the memory
    untouched: the compacted prefix plus the unconsumed tail is exactly
    the prefix it started with followed by the input tokens, in order. -/
theorem parseLoopF_allPlain {table : List ArgparserOption} {stop : Bool} :
    ∀ {fuel : Nat} {env : Env} {argv out : List String},
    (∀ a ∈ argv, plainTok a = true) →
    ∃ out2 rem, parseLoopF table stop fuel env argv out = .ok (env, out2, rem) ∧
      out2 ++ rem = out ++ argv := by
  intro fuel
  induction fuel with
  | zero =>
    intro env argv out hplain
    cases argv with
    | nil => exact ⟨out, [], by simp [parseLoopF], by simp⟩
    | cons arg rest => exact ⟨out, arg :: rest, by simp [parseLoopF], rfl⟩
  | succ fuel ih =>
    intro env argv out hplain
    cases argv with
    | nil => exact ⟨out, [], by simp [parseLoopF], by simp⟩
    | cons arg rest =>
      have hp : plainTok arg = true := hplain arg (List.mem_cons_self arg rest)
      have hrest : ∀ a ∈ rest, plainTok a = true :=
        fun a ha => hplain a (List.mem_cons_of_mem arg ha)
      cases stop with
      | true => exact ⟨out, arg :: rest, by simp [parseLoopF, hp], rfl⟩
      | false =>
        obtain ⟨out2, rem, hrun, heq2⟩ := @ih env rest (out ++ [arg]) hrest
        refine ⟨out2, rem, ?_, ?_⟩
        · simp only [parseLoopF, hp, if_true]
          exact hrun
        · rw [heq2]
          simp

/-- C1 (counterexample): parsing the token `-c=1` against the BOOLEAN
    color option does not complete with the destination set: a token of
    length greater than 2 is processed as compound short flags, so after
    the character `c` sets the destination the character `=` matches no
    option and parsing terminates with UnknownOption for `-c=1`. -/
theorem claim_C1_counterexample :
    Argparser_parse (Argparser_init colorTable) env0 ["prog", "-c=1"] =
      .error ⟨.unknownOption "-c=1", ⟨[(0, .b true)], []⟩⟩ := by decide

/-- C1 (amended): for a BOOLEAN option with short name `c` and long name
    `color` bound to a destination, parsing `-c`, `--color`, or
    `--color=1` leaves the destination true; parsing `-c` followed by the
    token `0`, or `--color=0`, leaves the destination false; parsing
    `--color=maybe` terminates with InvalidValue; and parsing `-c=1`
    terminates with UnknownOption (the token is processed as compound
    short flags: `c` first sets the destination true, then `=` matches no
    option). -/
theorem claim_C1 :
    (Argparser_parse (Argparser_init colorTable) env0 ["prog", "-c"] =
      .ok ⟨0, [none], ⟨[(0, .b true)], []⟩⟩) ∧
    (Argparser_parse (Argparser_init colorTable) env0 ["prog", "--color"] =
      .ok ⟨0, [none], ⟨[(0, .b true)], []⟩⟩) ∧
    (Argparser_parse (Argparser_init colorTable) env0 ["prog", "--color=1"] =
      .ok ⟨0, [none], ⟨[(0, .b true)], []⟩⟩) ∧
    (Argparser_parse (Argparser_init colorTable) env0 ["prog", "-c", "0"] =
      .ok ⟨0, [none], ⟨[(0, .b false)], []⟩⟩) ∧
    (Argparser_parse (Argparser_init colorTable) env0 ["prog", "--color=0"] =
      .ok ⟨0, [none], ⟨[(0, .b false)], []⟩⟩) ∧
    (Argparser_parse (Argparser_init colorTable) env0 ["prog", "--color=maybe"] =
      .error ⟨.invalidValue 'c' (some "color") "expects no value, 0, or 1", env0⟩) ∧
    (Argparser_parse (Argparser_init colorTable) env0 ["prog", "-c=1"] =
      .error ⟨.unknownOption "-c=1", ⟨[(0, .b true)], []⟩⟩) := by
  exact ⟨by decide, by decide, by decide, by decide, by decide, by decide, by decide⟩

/-- C2 (counterexample): in the long-option matcher, a BOOLEAN candidate
    whose long name is followed by a non-`=`, non-empty suffix does
    produce a match: `--colorful` against the `color` entry is dispatched
    valueless and sets the destination true instead of producing no
    match. -/
theorem claim_C2_counterexample :
    Argparser_parseLongOption colorTable env0 "--colorful" =
      .ok ⟨[(0, .b true)], []⟩ := by decide

/-- C2 (amended): in the long-option matcher, for every token whose text
    after the leading `--` begins with a candidate entry's long name: if
    the character immediately after the matched name is `=`, the
    remainder is dispatched as the value; if it is anything other than
    `=` (end-of-token or a non-empty suffix, which is ignored), a BOOLEAN
    candidate is dispatched valueless, while a candidate of any other
    kind produces no match. -/
theorem claim_C2 (opt : ArgparserOption) (nm : String) (env : Env) (tok : String)
    (hn : opt.longName = some nm) (hlen : 1 ≤ nm.data.length) (hne : opt.type ≠ .END)
    (hpre : (tok.data.drop 2).take nm.data.length = nm.data) :
    (((tok.data.drop 2).drop nm.data.length).head? = some '=' →
      Argparser_parseLongOption [opt, optEnd] env tok =
        Argparser_parseValue env opt
          (some (String.mk (((tok.data.drop 2).drop nm.data.length).drop 1)))) ∧
    (((tok.data.drop 2).drop nm.data.length).head? ≠ some '=' → opt.type = .BOOLEAN →
      Argparser_parseLongOption [opt, optEnd] env tok = Argparser_parseValue env opt none) ∧
    (((tok.data.drop 2).drop nm.data.length).head? ≠ some '=' → opt.type ≠ .BOOLEAN →
      Argparser_parseLongOption [opt, optEnd] env tok = .error ⟨.unknownOption tok, env⟩) := by
  have hlt : ¬ nm.data.length < 1 := by omega
  have hend : ∀ (e2 : Env) (f2 : Bool), longLoop tok [optEnd] e2 f2 = .ok (e2, f2) := by
    intro e2 f2
    simp [longLoop, optEnd]
  refine ⟨?_, ?_, ?_⟩
  · intro heq
    unfold Argparser_parseLongOption
    unfold longLoop
    rw [if_neg hne, hn]
    dsimp only
    rw [if_neg hlt, if_pos hpre, if_pos heq]
    cases hpv : Argparser_parseValue env opt
        (some (String.mk (((tok.data.drop 2).drop nm.data.length).drop 1))) with
    | error e => rfl
    | ok env' =>
      dsimp only
      rw [hend env' true]
      rfl
  · intro hne2 hb
    unfold Argparser_parseLongOption
    unfold longLoop
    rw [if_neg hne, hn]
    dsimp only
    rw [if_neg hlt, if_pos hpre, if_neg hne2, if_pos hb]
    cases hpv : Argparser_parseValue env opt none with
    | error e => rfl
    | ok env' =>
      dsimp only
      rw [hend env' true]
      rfl
  · intro hne2 hnb
    unfold Argparser_parseLongOption
    unfold longLoop
    rw [if_neg hne, hn]
    dsimp only
    rw [if_neg hlt, if_pos hpre, if_neg hne2, if_neg hnb, hend env false]
    rfl

/-- C2 (witness): the amended statement instantiated at the BOOLEAN color
    option and the token `--colorful`, whose suffix `ful` is non-empty
    and does not start with `=`. -/
theorem claim_C2_witness :
    Argparser_parseLongOption [optColor, optEnd] env0 "--colorful" =
      Argparser_parseValue env0 optColor none :=
  (claim_C2 optColor "color" env0 "--colorful" rfl (by decide) (by decide)
    (by decide)).2.1 (by decide) rfl

/-- C3: whenever `parse` returns a count `n`, the first `n` slots of the
    caller's vector are the tokens not consumed as option syntax — an
    order-preserving selection (sublist) of the input tokens with index 0
    of the original vector excluded entirely — and slot `n` is the NULL
    sentinel; moreover, for every input containing no option-like tokens,
    `parse` returns the number of input tokens minus the invocation name
    and leaves them at the front in their original relative order. -/
theorem claim_C3 :
    (∀ (self : Argparser) (env : Env) (prog : String) (args : List String)
        (res : ParseResult), self.valid = true →
        Argparser_parse self env (prog :: args) = .ok res →
        ∃ l : List String, l.Sublist args ∧ res.count = l.length ∧
          res.slots = l.map some ++ [none]) ∧
    (∀ (self : Argparser) (env : Env) (prog : String) (args : List String),
        self.valid = true → (∀ a ∈ args, plainTok a = true) →
        Argparser_parse self env (prog :: args) =
          .ok ⟨args.length, args.map some ++ [none], env⟩) := by
  constructor
  · intro self env prog args res hvalid h
    simp only [Argparser_parse, hvalid, if_true, List.drop_succ_cons, List.drop_zero] at h
    cases hrun : parseLoopF self.options self.stopAtNonOption args.length env args [] with
    | error e =>
      rw [hrun] at h
      exact absurd h (by simp)
    | ok v =>
      obtain ⟨env', out2, rem⟩ := v
      rw [hrun] at h
      simp only [Except.ok.injEq] at h
      subst h
      obtain ⟨mid, hmid, hsub⟩ := parseLoopF_ok_sublist hrun
      simp only [List.nil_append] at hmid
      subst hmid
      exact ⟨out2 ++ rem, hsub, by simp [List.length_append], rfl⟩
  · intro self env prog args hvalid hplain
    obtain ⟨out2, rem, hrun, heq2⟩ :=
      @parseLoopF_allPlain self.options self.stopAtNonOption args.length env args [] hplain
    simp only [List.nil_append] at heq2
    simp only [Argparser_parse, hvalid, if_true, List.drop_succ_cons, List.drop_zero]
    rw [hrun]
    have hcount : out2.length + rem.length = args.length := by
      rw [← List.length_append, heq2]
    simp [hcount, heq2]

/-- C3 (witness): a parse of two plain tokens returns count 2 and leaves
    both tokens at the front in order, followed by the sentinel. -/
theorem claim_C3_witness :
    Argparser_parse (Argparser_init colorTable) env0 ["prog", "alpha", "beta"] =
      .ok ⟨2, [some "alpha", some "beta", none], env0⟩ :=
  claim_C3.2 (Argparser_init colorTable) env0 "prog" ["alpha", "beta"] rfl (by decide)

/-- C4: a token that is exactly `--` ends option parsing when the parse
    loop reaches it: it is consumed, does not appear among the residual
    positionals, and every token after it becomes a residual positional
    regardless of a leading `-`, never raising UnknownOption — stated for
    the loop at any point, for a full parse whose first token is `--`
    with an arbitrary tail, and for the spec's example input
    `["-c", "--", "-x", "file.txt"]`. -/
theorem claim_C4 :
    (∀ (table : List ArgparserOption) (stop : Bool) (fuel : Nat) (env : Env)
        (out rest : List String),
        parseLoopF table stop (fuel + 1) env ("--" :: rest) out = .ok (env, out, rest)) ∧
    (∀ (self : Argparser) (env : Env) (prog : String) (post : List String),
        self.valid = true →
        Argparser_parse self env (prog :: "--" :: post) =
          .ok ⟨post.length, post.map some ++ [none], env⟩) ∧
    (Argparser_parse (Argparser_init colorTable) env0
        ["prog", "-c", "--", "-x", "file.txt"] =
      .ok ⟨2, [some "-x", some "file.txt", none], ⟨[(0, .b true)], []⟩⟩) := by
  refine ⟨?_, ?_, by decide⟩
  · intro table stop fuel env out rest
    rfl
  · intro self env prog post hvalid
    have hrun : parseLoopF self.options self.stopAtNonOption (("--" :: post).length) env
        ("--" :: post) [] = .ok (env, [], post) := rfl
    simp only [Argparser_parse, hvalid, if_true, List.drop_succ_cons, List.drop_zero]
    rw [hrun]
    simp

/-- C4 (witness): a full parse whose first token is `--` returns all
    later tokens, option-like or not, as positionals. -/
theorem claim_C4_witness :
    Argparser_parse (Argparser_init colorTable) env0 ["prog", "--", "-z", "q"] =
      .ok ⟨2, [some "-z", some "q", none], env0⟩ :=
  claim_C4.2.1 (Argparser_init colorTable) env0 "prog" ["-z", "q"] rfl

/-- C5: with stop-at-non-option enabled, the first plain token (no
    leading `-`, or the single character `-`) ends parsing immediately
    and that token together with all remaining tokens becomes the
    residual positionals in order; in particular the spec's example
    `["--inverse", "report.csv", "--color"]` yields positionals
    `["report.csv", "--color"]` and `--color` is never parsed as an
    option (its destination is never written). -/
theorem claim_C5 :
    (∀ (table : List ArgparserOption) (fuel : Nat) (env : Env) (out : List String)
        (arg : String) (rest : List String), plainTok arg = true →
        parseLoopF table true (fuel + 1) env (arg :: rest) out =
          .ok (env, out, arg :: rest)) ∧
    (Argparser_parse { Argparser_init stopTable with stopAtNonOption := true } env0
        ["prog", "--inverse", "report.csv", "--color"] =
      .ok ⟨2, [some "report.csv", some "--color", none], ⟨[(1, .b true)], []⟩⟩) := by
  refine ⟨?_, by decide⟩
  intro table fuel env out arg rest hp
  simp [parseLoopF, hp]

/-- C5 (witness): the loop-level statement instantiated at a plain token
    followed by an option-like token. -/
theorem claim_C5_witness :
    parseLoopF colorTable true (0 + 1) env0 ["pos", "--color"] [] =
      .ok (env0, [], ["pos", "--color"]) :=
  claim_C5.1 colorTable 0 env0 [] "pos" ["--color"] (by decide)

/-- C6: each character of a short token of length greater than 2 is an
    independent valueless flag: `-ab` with `a` and `b` BOOLEAN entries
    sets both destinations true and consumes exactly one token (the
    matcher leaves the cursor on the token itself); the first character
    matching no entry raises UnknownOption immediately, without scanning
    the remaining characters (`-azb` stops at `z` and never writes the
    destination of `b`). -/
theorem claim_C6 :
    (Argparser_parse (Argparser_init abTable) env0 ["prog", "-ab", "pos"] =
      .ok ⟨1, [some "pos", none], ⟨[(0, .b true), (1, .b true)], []⟩⟩) ∧
    (Argparser_parseShortOption abTable env0 ["-ab", "next"] =
      .ok (⟨[(0, .b true), (1, .b true)], []⟩, ["-ab", "next"])) ∧
    (Argparser_parseShortOption abTable env0 ["-azb"] =
      .error ⟨.unknownOption "-azb", ⟨[(0, .b true)], []⟩⟩) := by
  exact ⟨by decide, by decide, by decide⟩

/-- C7: for an INTEGER option with a destination, conversion of `12abc`
    always raises InvalidValue with reason `expects an integer value`
    (the destination having first received the converted prefix 12),
    conversion of `12` succeeds and writes 12, absent or empty text
    raises InvalidValue with reason `requires a value`, and the standard
    `0x` and leading-`0` prefixes are accepted by the base-agnostic
    parse (`0x1A` writes 26, `012` writes 10). -/
theorem claim_C7 (env : Env) :
    (Argparser_parseValue env optInt (some "12abc") =
      .error ⟨.invalidValue 'i' (some "int") "expects an integer value",
        ⟨storeWrite env.store 0 (.i 12), env.calls⟩⟩) ∧
    (Argparser_parseValue env optInt (some "12") =
      .ok ⟨storeWrite env.store 0 (.i 12), env.calls⟩) ∧
    (Argparser_parseValue env optInt none =
      .error ⟨.invalidValue 'i' (some "int") "requires a value", env⟩) ∧
    (Argparser_parseValue env optInt (some "") =
      .error ⟨.invalidValue 'i' (some "int") "requires a value", env⟩) ∧
    (Argparser_parseValue env optInt (some "0x1A") =
      .ok ⟨storeWrite env.store 0 (.i 26), env.calls⟩) ∧
    (Argparser_parseValue env optInt (some "012") =
      .ok ⟨storeWrite env.store 0 (.i 10), env.calls⟩) := by
  exact ⟨rfl, rfl, rfl, rfl, rfl, rfl⟩

/-- C7 (witness): the INTEGER conversion statement instantiated at the
    empty initial memory. -/
theorem claim_C7_witness :
    Argparser_parseValue env0 optInt (some "12abc") =
      .error ⟨.invalidValue 'i' (some "int") "expects an integer value",
        ⟨[(0, .i 12)], []⟩⟩ :=
  (claim_C7 env0).1

/-- C8: every configuration operation and `parse` called on a handle that
    is not in the valid state (such as one invalidated by `clear`) fails
    with the assertion exit, which is distinct from the user-facing
    UnknownOption and InvalidValue exits; on a valid handle the assertion
    branch is unreachable: each setter succeeds and `parse` proceeds to
    the parse loop. -/
theorem claim_C8 (self : Argparser) (env : Env) (argv : List String) (s : String)
    (b : Bool) (h : self.valid = false) :
    Argparser_setUsage self s = .error .assertFail ∧
    Argparser_setDescription self s = .error .assertFail ∧
    Argparser_setEpilog self s = .error .assertFail ∧
    Argparser_setStopAtNonOption self b = .error .assertFail ∧
    Argparser_parse self env argv = .error ⟨.assertFail, env⟩ ∧
    (Argparser_clear self).valid = false ∧
    (∀ self2 : Argparser, self2.valid = true →
      Argparser_setUsage self2 s = .ok { self2 with usage := some s } ∧
      Argparser_setDescription self2 s = .ok { self2 with description := some s } ∧
      Argparser_setEpilog self2 s = .ok { self2 with epilog := some s } ∧
      Argparser_setStopAtNonOption self2 b = .ok { self2 with stopAtNonOption := b } ∧
      Argparser_parse self2 env argv =
        (match parseLoopF self2.options self2.stopAtNonOption (argv.drop 1).length env
            (argv.drop 1) [] with
         | .error e => .error e
         | .ok (env', out, remaining) =>
           .ok ⟨out.length + remaining.length,
                (out ++ remaining).map some ++ [none], env'⟩)) := by
  refine ⟨by simp [Argparser_setUsage, h], by simp [Argparser_setDescription, h],
    by simp [Argparser_setEpilog, h], by simp [Argparser_setStopAtNonOption, h],
    by simp [Argparser_parse, h], by simp [Argparser_clear], ?_⟩
  intro self2 h2
  refine ⟨by simp [Argparser_setUsage, h2], by simp [Argparser_setDescription, h2],
    by simp [Argparser_setEpilog, h2], by simp [Argparser_setStopAtNonOption, h2], ?_⟩
  simp only [Argparser_parse, h2, if_true]

/-- C8 (witness): the statement instantiated at a handle invalidated by
    `clear`. -/
theorem claim_C8_witness :
    Argparser_setUsage (Argparser_clear (Argparser_init colorTable)) "u" =
      .error .assertFail :=
  (claim_C8 (Argparser_clear (Argparser_init colorTable)) env0 ["prog"] "u" true rfl).1

/-- C9: for every option descriptor whose destination slot is absent, the
    value converter performs no type checking or conversion at all — no
    attached text, of any kind and for any option type, can raise
    InvalidValue — and the only effect of a match is invoking the
    descriptor's callback if present. -/
theorem claim_C9 (env : Env) (opt : ArgparserOption) (optvalue : Option String)
    (h : opt.value = none) :
    Argparser_parseValue env opt optvalue =
      .ok ⟨env.store, env.calls ++
        (match opt.callback with | some cb => [cb] | none => [])⟩ := by
  simp only [Argparser_parseValue, h]
  cases hcb : opt.callback with
  | some cb => simp [invokeCallback, hcb]
  | none => simp [invokeCallback, hcb]

/-- C9 (witness): `--help=banana` style attached text against the
    destination-less help option never reports a conversion error; the
    only effect is recording the help callback. -/
theorem claim_C9_witness :
    Argparser_parseValue env0 optHelp (some "banana") = .ok ⟨[], [0]⟩ :=
  claim_C9 env0 optHelp (some "banana") rfl

/-- C10: compound short-flag processing is not atomic on error: when a
    character of a compound token matches no entry, the destinations of
    all earlier matching characters have already been written and their
    callbacks already invoked at the moment UnknownOption terminates
    processing — shown both for `-acb` (both `a` and `c` written, both
    callbacks traced, in order, before `b` fails) and for the parse-level
    run of `-ab` with `b` unknown. -/
theorem claim_C10 :
    (Argparser_parseShortOption acTable env0 ["-acb"] =
      .error ⟨.unknownOption "-acb", ⟨[(0, .b true), (2, .b true)], [10, 11]⟩⟩) ∧
    (Argparser_parse (Argparser_init acTable) env0 ["prog", "-ab"] =
      .error ⟨.unknownOption "-ab", ⟨[(0, .b true)], [10]⟩⟩) := by
  exact ⟨by decide, by decide⟩
